import Mathlib

/-!
Verification of the frame-metric segment-detection and scoped-statistics
engine of `scripts/dev/analyze-video.py`.

The Python source is shallowly embedded below.  Python floats are modelled
as rationals (`ℚ`), Python `int` as `ℤ` (or `ℕ` for list indices, which are
nonnegative at every call site), an "undefined" metric entry (`None`) as
`Option.none`, and raising `ValueError` as `Except.error`.  Python's
`round` (banker's rounding, half to even) is modelled by `pyRound`.
-/

/-- A detected segment, as built by `detect_segments`
(`analyze-video.py`, lines 198-204 and 211-217). -/
structure Segment where
  start_frame_index : ℕ
  end_frame_index : ℕ
  frame_count : ℕ
deriving Repr, DecidableEq

/-- The scan predicate of `detect_segments` (line 189):
`value is not None and value <= threshold`. -/
def qualifies (values : List (Option ℚ)) (threshold : ℚ) (idx : ℕ) : Prop :=
  ∃ v, values.getD idx none = some v ∧ v ≤ threshold

instance qualifies.dec (values : List (Option ℚ)) (threshold : ℚ) (idx : ℕ) :
    Decidable (qualifies values threshold idx) :=
  match h : values.getD idx none with
  | some v =>
      if hv : v ≤ threshold then
        .isTrue ⟨v, h, hv⟩
      else
        .isFalse (by rintro ⟨w, hw, hw2⟩; rw [h] at hw; cases hw; exact hv hw2)
  | none => .isFalse (by rintro ⟨w, hw, _⟩; rw [h] at hw; cases hw)

/-- Closing the current run (`analyze-video.py`, lines 195-206 and 208-217):
if a run `[a, b]` is open, emit it when `frame_count = b - a + 1` reaches
`min_frames`, and reset the run pointers. -/
def closeRun (min_frames : ℤ) (run : Option (ℕ × ℕ)) (acc : List Segment) :
    List Segment :=
  match run with
  | none => acc
  | some (a, b) =>
      if min_frames ≤ (b : ℤ) - (a : ℤ) + 1 then
        acc ++ [⟨a, b, b - a + 1⟩]
      else acc

/-- The scan loop of `detect_segments` (lines 187-217): one left-to-right pass
over the index list, keeping the open-run pointers `(seg_start, seg_end)`
and the emitted segments.  After the list is exhausted the still-open run is
closed under the same length filter (lines 208-217). -/
def detectLoop (values : List (Option ℚ)) (threshold : ℚ) (min_frames : ℤ) :
    List ℕ → Option (ℕ × ℕ) → List Segment → List Segment
  | [], run, acc => closeRun min_frames run acc
  | idx :: rest, run, acc =>
      match values.getD idx none with
      | some v =>
          if v ≤ threshold then
            match run with
            | none => detectLoop values threshold min_frames rest (some (idx, idx)) acc
            | some (a, _) => detectLoop values threshold min_frames rest (some (a, idx)) acc
          else detectLoop values threshold min_frames rest none (closeRun min_frames run acc)
      | none => detectLoop values threshold min_frames rest none (closeRun min_frames run acc)

/-- Embedding of `detect_segments` (`analyze-video.py`, lines 176-219): scan
`range(index_start, index_end)` and report the contiguous runs of defined
values `<= threshold` whose length is at least `min_frames`. -/
def detect_segments (values : List (Option ℚ)) (threshold : ℚ) (min_frames : ℤ)
    (index_start index_end : ℕ) : List Segment :=
  detectLoop values threshold min_frames
    (List.range' index_start (index_end - index_start)) none []

/-- The index where a run that is currently open with end pointer `c` stops
growing when the scan continues over the `n` indices `i, i+1, ...`: the run
end advances over qualifying indices and freezes at the first
non-qualifying one.  (Proof device used to reason about `detectLoop`.) -/
def extEnd (values : List (Option ℚ)) (threshold : ℚ) : ℕ → ℕ → ℕ → ℕ
  | c, _, 0 => c
  | c, i, n + 1 =>
      if qualifies values threshold i then extEnd values threshold i (i + 1) n else c

/-- A maximal contiguous qualifying run `[a, b]` inside the scan range
`[s, e)`: every index in `[a, b]` holds a defined value `<= threshold`, and
the run can be extended neither to the left (it starts at the range start,
or the previous value is undefined or above the threshold) nor to the right
(it ends at the last scanned index, or the next value is undefined or above
the threshold). -/
def isMaxRun (values : List (Option ℚ)) (threshold : ℚ) (s e a b : ℕ) : Prop :=
  s ≤ a ∧ a ≤ b ∧ b < e ∧
    (∀ j, a ≤ j → j ≤ b → qualifies values threshold j) ∧
    (a = s ∨ ¬ qualifies values threshold (a - 1)) ∧
    (b + 1 = e ∨ ¬ qualifies values threshold (b + 1))

/-- Python 3 `round` on an exact real: round half to even. -/
def pyRound (q : ℚ) : ℤ :=
  if q - ⌊q⌋ < 1 / 2 then ⌊q⌋
  else if 1 / 2 < q - ⌊q⌋ then ⌊q⌋ + 1
  else if ⌊q⌋ % 2 = 0 then ⌊q⌋ else ⌊q⌋ + 1

/-- Embedding of `get_scope_indices` (`analyze-video.py`, lines 241-250).  Any scope other
than `"full"` takes the tail branch, exactly as in the source.  Raising
`ValueError` is modelled as `Except.error`. -/
def get_scope_indices (total_frames : ℤ) (scope : String) (tail_seconds : ℚ)
    (fps : ℚ) : Except String (ℤ × ℤ) :=
  if total_frames ≤ 0 then .ok (0, 0)
  else if scope = "full" then .ok (0, total_frames)
  else if tail_seconds ≤ 0 then .error "--tail-seconds must be > 0 when --scope tail"
  else
    .ok (max 0 (total_frames - max 1 (pyRound (tail_seconds * fps))), total_frames)

/-- Embedding of `percentile` (`analyze-video.py`, lines 127-140).  The empty-sample
not-a-number sentinel is modelled as `Option.none`. -/
def percentile (sorted_values : List ℚ) (p : ℚ) : Option ℚ :=
  if sorted_values.isEmpty then none
  else if p ≤ 0 then sorted_values.head?
  else if 100 ≤ p then sorted_values.getLast?
  else
    let pos : ℚ := ((sorted_values.length - 1 : ℕ) : ℚ) * (p / 100)
    let lo : ℤ := ⌊pos⌋
    let hi : ℤ := ⌈pos⌉
    if lo = hi then some (sorted_values.getD lo.toNat 0)
    else
      some (sorted_values.getD lo.toNat 0 * (1 - (pos - (lo : ℚ))) +
        sorted_values.getD hi.toNat 0 * (pos - (lo : ℚ)))

/-- A segment enriched with time data, as built by
`enrich_segments_with_time` (`analyze-video.py`, lines 222-238). -/
structure EnrichedSegment where
  start_frame_index : ℕ
  end_frame_index : ℕ
  start_time_sec : ℚ
  end_time_sec : ℚ
  frame_count : ℕ
  duration_sec : ℚ
deriving Repr, DecidableEq

/-- Embedding of `enrich_segments_with_time` (`analyze-video.py`, lines 222-238). -/
def enrich_segments_with_time (segments : List Segment) (fps : ℚ) :
    List EnrichedSegment :=
  segments.map fun seg =>
    { start_frame_index := seg.start_frame_index
      end_frame_index := seg.end_frame_index
      start_time_sec := (seg.start_frame_index : ℚ) / fps
      end_time_sec := (seg.end_frame_index : ℚ) / fps
      frame_count := seg.frame_count
      duration_sec := (seg.frame_count : ℚ) / fps }

deriving instance DecidableEq for Except

/-- The summary report of `analyze_summary` (`analyze-video.py`, lines
253-292).  The not-a-number sentinel used for statistics over an empty
motion sample is modelled as `Option.none`. -/
structure SummaryReport where
  fps : ℚ
  total_frames : ℕ
  duration_sec_estimate : ℚ
  black_threshold : ℚ
  luma_min : ℚ
  luma_max : ℚ
  luma_mean : ℚ
  luma_p05 : Option ℚ
  luma_p50 : Option ℚ
  luma_p95 : Option ℚ
  motion_sample_count : ℕ
  motion_min : Option ℚ
  motion_max : Option ℚ
  motion_mean : Option ℚ
  motion_p05 : Option ℚ
  motion_p50 : Option ℚ
  motion_p95 : Option ℚ
  black_frame_count : ℕ
  black_frame_ratio : ℚ
deriving Repr, DecidableEq

/-- Python `min` over a nonempty list (the caller guarantees nonemptiness;
on `[]` Python raises, modelled by the unused default `0`). -/
def listMin (l : List ℚ) : ℚ :=
  match l with
  | [] => 0
  | h :: t => t.foldl min h

/-- Python `max` over a nonempty list (same proviso as `listMin`). -/
def listMax (l : List ℚ) : ℚ :=
  match l with
  | [] => 0
  | h :: t => t.foldl max h

/-- Embedding of `analyze_summary` (`analyze-video.py`, lines 253-292).  `load_metrics`
guarantees `luma_values` is nonempty, so the divisions by `total` are
well-defined at every call site (in `ℚ`, `x / 0 = 0` stands in for the
`ZeroDivisionError` that can never be reached). -/
def analyze_summary (fps : ℚ) (luma_values : List ℚ)
    (motion_values : List (Option ℚ)) (black_threshold : ℚ) : SummaryReport :=
  let total := luma_values.length
  let sorted_luma := List.insertionSort (· ≤ ·) luma_values
  let valid_motion := motion_values.filterMap id
  let sorted_motion := List.insertionSort (· ≤ ·) valid_motion
  let black_count := (luma_values.filter (fun v => decide (v ≤ black_threshold))).length
  { fps := fps
    total_frames := total
    duration_sec_estimate := (total : ℚ) / fps
    black_threshold := black_threshold
    luma_min := listMin luma_values
    luma_max := listMax luma_values
    luma_mean := luma_values.sum / (total : ℚ)
    luma_p05 := percentile sorted_luma 5
    luma_p50 := percentile sorted_luma 50
    luma_p95 := percentile sorted_luma 95
    motion_sample_count := valid_motion.length
    motion_min := if valid_motion.isEmpty then none else some (listMin valid_motion)
    motion_max := if valid_motion.isEmpty then none else some (listMax valid_motion)
    motion_mean := if valid_motion.isEmpty then none
      else some (valid_motion.sum / (valid_motion.length : ℚ))
    motion_p05 := if valid_motion.isEmpty then none else percentile sorted_motion 5
    motion_p50 := if valid_motion.isEmpty then none else percentile sorted_motion 50
    motion_p95 := if valid_motion.isEmpty then none else percentile sorted_motion 95
    black_frame_count := black_count
    black_frame_ratio := (black_count : ℚ) / (total : ℚ) }

/-- The black-segment report of `analyze_black_segments`
(`analyze-video.py`, lines 295-337), minus the input path. -/
structure BlackReport where
  mode : String
  fps : ℚ
  total_frames : ℕ
  duration_sec_estimate : ℚ
  scope : String
  tail_seconds : Option ℚ
  scope_start_frame : ℤ
  scope_end_frame_exclusive : ℤ
  black_threshold : ℚ
  min_segment_frames : ℤ
  black_frame_count_in_scope : ℕ
  black_frame_ratio_in_scope : ℚ
  has_black_at_video_end : Bool
  segment_count : ℕ
  segments : List EnrichedSegment
deriving Repr, DecidableEq

/-- Embedding of `analyze_black_segments` (`analyze-video.py`, lines 295-337).  The scope
resolver returns nonnegative indices (`0 <= start <= end <= total`), so the
`Int.toNat` conversions to list indices are lossless. -/
def analyze_black_segments (fps : ℚ) (luma_values : List ℚ) (scope : String)
    (tail_seconds black_threshold : ℚ) (min_segment_frames : ℤ) :
    Except String BlackReport :=
  let total := luma_values.length
  match get_scope_indices (total : ℤ) scope tail_seconds fps with
  | .error msg => .error msg
  | .ok (start, stop) =>
      let startN := start.toNat
      let stopN := stop.toNat
      let black_flags : List (Option ℚ) := luma_values.map some
      let segments_raw :=
        detect_segments black_flags black_threshold min_segment_frames startN stopN
      let segments := enrich_segments_with_time segments_raw fps
      let scoped_count : ℤ := stop - start
      let black_count := ((List.range' startN (stopN - startN)).filter
        (fun idx => decide (luma_values.getD idx 0 ≤ black_threshold))).length
      let has_black_at_end : Bool :=
        match segments.getLast? with
        | some seg => decide ((total : ℤ) - 1 ≤ (seg.end_frame_index : ℤ))
        | none => false
      .ok { mode := "black-segments"
            fps := fps
            total_frames := total
            duration_sec_estimate := (total : ℚ) / fps
            scope := scope
            tail_seconds := if scope = "tail" then some tail_seconds else none
            scope_start_frame := start
            scope_end_frame_exclusive := stop
            black_threshold := black_threshold
            min_segment_frames := min_segment_frames
            black_frame_count_in_scope := black_count
            black_frame_ratio_in_scope :=
              if 0 < scoped_count then (black_count : ℚ) / (scoped_count : ℚ) else 0
            has_black_at_video_end := has_black_at_end
            segment_count := segments.length
            segments := segments }

/-- The freeze-segment report of `analyze_freeze_segments`
(`analyze-video.py`, lines 340-387), minus the input path. -/
structure FreezeReport where
  mode : String
  fps : ℚ
  total_frames : ℕ
  duration_sec_estimate : ℚ
  scope : String
  tail_seconds : Option ℚ
  scope_start_frame : ℤ
  scope_end_frame_exclusive : ℤ
  freeze_threshold : ℚ
  min_segment_frames : ℤ
  freeze_frame_count_in_scope : ℕ
  freeze_frame_ratio_in_scope : ℚ
  has_freeze_at_video_end : Bool
  segment_count : ℕ
  segments : List EnrichedSegment
deriving Repr, DecidableEq

/-- Embedding of `analyze_freeze_segments` (`analyze-video.py`, lines 340-387).  The
detection start is clamped to `max start 1` (line 352: frame `0` has no
motion value), the scoped frame count to `max 0 (stop - start)` (line 361),
and the ratio division is guarded by `scoped_count > 0` (line 383). -/
def analyze_freeze_segments (fps : ℚ) (motion_values : List (Option ℚ))
    (scope : String) (tail_seconds freeze_threshold : ℚ)
    (min_segment_frames : ℤ) : Except String FreezeReport :=
  let total := motion_values.length
  match get_scope_indices (total : ℤ) scope tail_seconds fps with
  | .error msg => .error msg
  | .ok (start0, stop) =>
      let start := max start0 1
      let startN := start.toNat
      let stopN := stop.toNat
      let segments_raw :=
        detect_segments motion_values freeze_threshold min_segment_frames startN stopN
      let segments := enrich_segments_with_time segments_raw fps
      let scoped_count : ℤ := max 0 (stop - start)
      let freeze_count := ((List.range' startN (stopN - startN)).filter
        (fun idx => decide (qualifies motion_values freeze_threshold idx))).length
      let has_freeze_at_end : Bool :=
        match segments.getLast? with
        | some seg => decide ((total : ℤ) - 1 ≤ (seg.end_frame_index : ℤ))
        | none => false
      .ok { mode := "freeze-segments"
            fps := fps
            total_frames := total
            duration_sec_estimate := (total : ℚ) / fps
            scope := scope
            tail_seconds := if scope = "tail" then some tail_seconds else none
            scope_start_frame := start
            scope_end_frame_exclusive := stop
            freeze_threshold := freeze_threshold
            min_segment_frames := min_segment_frames
            freeze_frame_count_in_scope := freeze_count
            freeze_frame_ratio_in_scope :=
              if 0 < scoped_count then (freeze_count : ℚ) / (scoped_count : ℚ) else 0
            has_freeze_at_video_end := has_freeze_at_end
            segment_count := segments.length
            segments := segments }

/-- Embedding of `normalize_mode_scope` (`analyze-video.py`, lines 548-554): legacy mode
aliases. -/
def normalize_mode_scope (mode scope : String) : String × String :=
  if mode = "tail-black" then ("black-segments", "tail")
  else if mode = "full-black" then ("black-segments", "full")
  else (mode, scope)

/-- The run configuration consumed by `run_analysis` (the argparse options
it reads, plus whether the input path exists). -/
structure Args where
  input_exists : Bool
  mode : String
  scope : String
  tail_seconds : ℚ
  black_threshold : ℚ
  freeze_threshold : ℚ
  min_segment_frames : ℤ
  stt_beam_size : ℤ
deriving Repr, DecidableEq

/-- The error taxonomy of the script: `FileNotFoundError` raised for a
missing input, `ValueError` for a parameter outside its domain or an
unsupported mode, and `RuntimeError` for a decode failure. -/
inductive RunError where
  | inputNotFound (msg : String)
  | invalidParameter (msg : String)
  | decodeFailure (msg : String)
  | unsupportedMode (msg : String)
deriving Repr, DecidableEq

/-- A run's structured result, one variant per analysis mode.  Transcription
is delegated to external backends, so its payload is not modelled. -/
inductive Report where
  | summary (r : SummaryReport)
  | black (r : BlackReport)
  | freeze (r : FreezeReport)
  | transcribe
deriving Repr, DecidableEq

/-- Embedding of `run_analysis` (`analyze-video.py`, lines 557-604).  Frame decoding
(`load_metrics`, line 574) is modelled by the `load` argument: its outcome
(the `(fps, luma_values, motion_values)` triple, or a decode error) is
consulted exactly where the source calls `load_metrics`, so a result that
is independent of `load` is a failure that precedes any frame decoding.
`ValueError` raised inside the segment analyzers is the same exception
class as the parameter checks, hence mapped to `invalidParameter`. -/
def run_analysis (args : Args)
    (load : Except RunError (ℚ × List ℚ × List (Option ℚ))) :
    Except RunError Report :=
  if args.input_exists = false then
    .error (.inputNotFound "input video not found")
  else if args.min_segment_frames ≤ 0 then
    .error (.invalidParameter "--min-segment-frames must be > 0")
  else if args.black_threshold < 0 then
    .error (.invalidParameter "--black-threshold must be >= 0")
  else if args.freeze_threshold < 0 then
    .error (.invalidParameter "--freeze-threshold must be >= 0")
  else if args.stt_beam_size ≤ 0 then
    .error (.invalidParameter "--stt-beam-size must be > 0")
  else
    let ms := normalize_mode_scope args.mode args.scope
    if ms.1 = "transcribe" then .ok .transcribe
    else
      match load with
      | .error e => .error e
      | .ok (fps, luma_values, motion_values) =>
          if ms.1 = "summary" then
            .ok (.summary (analyze_summary fps luma_values motion_values args.black_threshold))
          else if ms.1 = "black-segments" then
            match analyze_black_segments fps luma_values ms.2 args.tail_seconds
                args.black_threshold args.min_segment_frames with
            | .ok r => .ok (.black r)
            | .error msg => .error (.invalidParameter msg)
          else if ms.1 = "freeze-segments" then
            match analyze_freeze_segments fps motion_values ms.2 args.tail_seconds
                args.freeze_threshold args.min_segment_frames with
            | .ok r => .ok (.freeze r)
            | .error msg => .error (.invalidParameter msg)
          else .error (.unsupportedMode ms.1)

theorem closeRun_append (min_frames : ℤ) (run : Option (ℕ × ℕ)) (acc : List Segment) :
    closeRun min_frames run acc = acc ++ closeRun min_frames run [] := by
  cases run with
  | none => simp [closeRun]
  | some ab =>
      obtain ⟨a, b⟩ := ab
      show (if min_frames ≤ (b : ℤ) - (a : ℤ) + 1 then
          acc ++ [⟨a, b, b - a + 1⟩] else acc) =
        acc ++ (if min_frames ≤ (b : ℤ) - (a : ℤ) + 1 then [⟨a, b, b - a + 1⟩] else [])
      split <;> simp

theorem detectLoop_cons_neg {values : List (Option ℚ)} {threshold : ℚ} {idx : ℕ}
    (min_frames : ℤ) (hq : ¬ qualifies values threshold idx)
    (rest : List ℕ) (run : Option (ℕ × ℕ)) (acc : List Segment) :
    detectLoop values threshold min_frames (idx :: rest) run acc =
      detectLoop values threshold min_frames rest none (closeRun min_frames run acc) := by
  cases h : values.getD idx none with
  | none => simp only [detectLoop, h]
  | some v =>
      have hv : ¬ v ≤ threshold := fun hle => hq ⟨v, h, hle⟩
      simp only [detectLoop, h, if_neg hv]

theorem detectLoop_cons_pos_none {values : List (Option ℚ)} {threshold : ℚ} {idx : ℕ}
    (min_frames : ℤ) (hq : qualifies values threshold idx)
    (rest : List ℕ) (acc : List Segment) :
    detectLoop values threshold min_frames (idx :: rest) none acc =
      detectLoop values threshold min_frames rest (some (idx, idx)) acc := by
  obtain ⟨v, h, hv⟩ := hq
  simp only [detectLoop, h, if_pos hv]

theorem detectLoop_cons_pos_some {values : List (Option ℚ)} {threshold : ℚ} {idx : ℕ}
    (min_frames : ℤ) (hq : qualifies values threshold idx)
    (rest : List ℕ) (a b : ℕ) (acc : List Segment) :
    detectLoop values threshold min_frames (idx :: rest) (some (a, b)) acc =
      detectLoop values threshold min_frames rest (some (a, idx)) acc := by
  obtain ⟨v, h, hv⟩ := hq
  simp only [detectLoop, h, if_pos hv]

theorem detectLoop_acc (values : List (Option ℚ)) (threshold : ℚ) (min_frames : ℤ) :
    ∀ (idxs : List ℕ) (run : Option (ℕ × ℕ)) (acc : List Segment),
      detectLoop values threshold min_frames idxs run acc =
        acc ++ detectLoop values threshold min_frames idxs run [] := by
  intro idxs
  induction idxs with
  | nil =>
      intro run acc
      show closeRun min_frames run acc = acc ++ closeRun min_frames run []
      exact closeRun_append min_frames run acc
  | cons idx rest ih =>
      intro run acc
      by_cases hq : qualifies values threshold idx
      · cases run with
        | none =>
            rw [detectLoop_cons_pos_none min_frames hq,
              detectLoop_cons_pos_none min_frames hq, ih]
        | some ab =>
            obtain ⟨a, b⟩ := ab
            rw [detectLoop_cons_pos_some min_frames hq,
              detectLoop_cons_pos_some min_frames hq, ih]
      · rw [detectLoop_cons_neg min_frames hq, detectLoop_cons_neg min_frames hq,
          ih _ (closeRun min_frames run acc), ih _ (closeRun min_frames run []),
          closeRun_append, List.append_assoc]

theorem extEnd_ge (values : List (Option ℚ)) (threshold : ℚ) :
    ∀ (n c : ℕ), c ≤ extEnd values threshold c (c + 1) n := by
  intro n
  induction n with
  | zero => intro c; simp [extEnd]
  | succ k ih =>
      intro c
      by_cases hq : qualifies values threshold (c + 1)
      · rw [show extEnd values threshold c (c + 1) (k + 1) =
            extEnd values threshold (c + 1) (c + 1 + 1) k by simp [extEnd, hq]]
        exact Nat.le_trans (Nat.le_succ c) (ih (c + 1))
      · rw [show extEnd values threshold c (c + 1) (k + 1) = c by simp [extEnd, hq]]

theorem extEnd_lt (values : List (Option ℚ)) (threshold : ℚ) :
    ∀ (n c : ℕ), extEnd values threshold c (c + 1) n < c + 1 + n := by
  intro n
  induction n with
  | zero => intro c; simp [extEnd]
  | succ k ih =>
      intro c
      by_cases hq : qualifies values threshold (c + 1)
      · rw [show extEnd values threshold c (c + 1) (k + 1) =
            extEnd values threshold (c + 1) (c + 1 + 1) k by simp [extEnd, hq]]
        have := ih (c + 1)
        omega
      · rw [show extEnd values threshold c (c + 1) (k + 1) = c by simp [extEnd, hq]]
        omega

theorem extEnd_qual (values : List (Option ℚ)) (threshold : ℚ) :
    ∀ (n c j : ℕ), c + 1 ≤ j → j ≤ extEnd values threshold c (c + 1) n →
      qualifies values threshold j := by
  intro n
  induction n with
  | zero => intro c j h1 h2; simp [extEnd] at h2; omega
  | succ k ih =>
      intro c j h1 h2
      by_cases hq : qualifies values threshold (c + 1)
      · rw [show extEnd values threshold c (c + 1) (k + 1) =
            extEnd values threshold (c + 1) (c + 1 + 1) k by simp [extEnd, hq]] at h2
        rcases Nat.eq_or_lt_of_le h1 with h | h
        · exact h ▸ hq
        · exact ih (c + 1) j h h2
      · rw [show extEnd values threshold c (c + 1) (k + 1) = c by simp [extEnd, hq]] at h2
        omega

theorem extEnd_max (values : List (Option ℚ)) (threshold : ℚ) :
    ∀ (n c : ℕ), extEnd values threshold c (c + 1) n + 1 < c + 1 + n →
      ¬ qualifies values threshold (extEnd values threshold c (c + 1) n + 1) := by
  intro n
  induction n with
  | zero => intro c h; simp [extEnd] at h
  | succ k ih =>
      intro c h
      by_cases hq : qualifies values threshold (c + 1)
      · rw [show extEnd values threshold c (c + 1) (k + 1) =
            extEnd values threshold (c + 1) (c + 1 + 1) k by simp [extEnd, hq]] at h ⊢
        exact ih (c + 1) (by omega)
      · rw [show extEnd values threshold c (c + 1) (k + 1) = c by simp [extEnd, hq]]
        simpa using hq

theorem detectLoop_open (values : List (Option ℚ)) (threshold : ℚ) (min_frames : ℤ) :
    ∀ (n c a : ℕ),
      detectLoop values threshold min_frames (List.range' (c + 1) n) (some (a, c)) [] =
        closeRun min_frames (some (a, extEnd values threshold c (c + 1) n)) [] ++
          detectLoop values threshold min_frames
            (List.range' (extEnd values threshold c (c + 1) n + 2)
              (c + 1 + n - (extEnd values threshold c (c + 1) n + 2))) none [] := by
  intro n
  induction n with
  | zero =>
      intro c a
      rw [show extEnd values threshold c (c + 1) 0 = c from rfl,
        show c + 1 + 0 - (c + 2) = 0 by omega]
      show closeRun min_frames (some (a, c)) [] =
        closeRun min_frames (some (a, c)) [] ++ closeRun min_frames none []
      simp [closeRun]
  | succ k ih =>
      intro c a
      rw [show List.range' (c + 1) (k + 1) = (c + 1) :: List.range' (c + 1 + 1) k from rfl]
      by_cases hq : qualifies values threshold (c + 1)
      · rw [detectLoop_cons_pos_some min_frames hq, ih (c + 1) a,
          show extEnd values threshold c (c + 1) (k + 1) =
            extEnd values threshold (c + 1) (c + 1 + 1) k by simp [extEnd, hq],
          show c + 1 + (k + 1) = c + 1 + 1 + k by omega]
      · rw [detectLoop_cons_neg min_frames hq,
          detectLoop_acc values threshold min_frames _ none (closeRun min_frames (some (a, c)) []),
          show extEnd values threshold c (c + 1) (k + 1) = c by simp [extEnd, hq],
          show c + 1 + (k + 1) - (c + 2) = k by omega]

theorem detect_segments_stop (values : List (Option ℚ)) (threshold : ℚ)
    (min_frames : ℤ) {index_start index_end : ℕ} (h : index_end ≤ index_start) :
    detect_segments values threshold min_frames index_start index_end = [] := by
  unfold detect_segments
  rw [Nat.sub_eq_zero_of_le h]
  rfl

theorem detect_segments_skip (values : List (Option ℚ)) (threshold : ℚ)
    (min_frames : ℤ) {index_start index_end : ℕ} (hse : index_start < index_end)
    (hq : ¬ qualifies values threshold index_start) :
    detect_segments values threshold min_frames index_start index_end =
      detect_segments values threshold min_frames (index_start + 1) index_end := by
  unfold detect_segments
  rw [show index_end - index_start = (index_end - (index_start + 1)) + 1 by omega,
    show List.range' index_start ((index_end - (index_start + 1)) + 1) =
      index_start :: List.range' (index_start + 1) (index_end - (index_start + 1)) from rfl,
    detectLoop_cons_neg min_frames hq]
  rfl

theorem detect_segments_run (values : List (Option ℚ)) (threshold : ℚ)
    (min_frames : ℤ) {index_start index_end : ℕ} (hse : index_start < index_end)
    (hq : qualifies values threshold index_start) :
    detect_segments values threshold min_frames index_start index_end =
      closeRun min_frames
          (some (index_start,
            extEnd values threshold index_start (index_start + 1) (index_end - index_start - 1))) [] ++
        detect_segments values threshold min_frames
          (extEnd values threshold index_start (index_start + 1) (index_end - index_start - 1) + 2)
          index_end := by
  unfold detect_segments
  rw [show index_end - index_start = (index_end - index_start - 1) + 1 by omega,
    show List.range' index_start ((index_end - index_start - 1) + 1) =
      index_start :: List.range' (index_start + 1) (index_end - index_start - 1) from rfl,
    detectLoop_cons_pos_none min_frames hq,
    detectLoop_open values threshold min_frames (index_end - index_start - 1) index_start index_start,
    show index_start + 1 + (index_end - index_start - 1) = index_end by omega,
    show index_end - index_start - 1 + 1 - 1 = index_end - index_start - 1 by omega]

theorem mem_closeRun_iff (min_frames : ℤ) (a' b' a b c : ℕ) :
    ((⟨a, b, c⟩ : Segment) ∈ closeRun min_frames (some (a', b')) []) ↔
      (min_frames ≤ (b' : ℤ) - (a' : ℤ) + 1 ∧
        (⟨a, b, c⟩ : Segment) = ⟨a', b', b' - a' + 1⟩) := by
  by_cases hm : min_frames ≤ (b' : ℤ) - (a' : ℤ) + 1
  · simp [closeRun, hm]
  · simp [closeRun, hm]

theorem isMaxRun_succ {values : List (Option ℚ)} {threshold : ℚ} {s e : ℕ}
    (hq : ¬ qualifies values threshold s) (a b : ℕ) :
    isMaxRun values threshold s e a b ↔ isMaxRun values threshold (s + 1) e a b := by
  unfold isMaxRun
  constructor
  · rintro ⟨h1, h2, h3, h4, h5, h6⟩
    have has : a ≠ s := by
      rintro rfl
      exact hq (h4 a le_rfl h2)
    refine ⟨by omega, h2, h3, h4, ?_, h6⟩
    rcases h5 with h5 | h5
    · exact absurd h5 has
    · exact Or.inr h5
  · rintro ⟨h1, h2, h3, h4, h5, h6⟩
    refine ⟨by omega, h2, h3, h4, ?_, h6⟩
    rcases h5 with rfl | h5
    · exact Or.inr (by simpa using hq)
    · exact Or.inr h5

theorem detect_mem_aux (values : List (Option ℚ)) (threshold : ℚ) (min_frames : ℤ) :
    ∀ (fuel s e : ℕ), e - s ≤ fuel → ∀ (a b c : ℕ),
      ((⟨a, b, c⟩ : Segment) ∈ detect_segments values threshold min_frames s e ↔
        (isMaxRun values threshold s e a b ∧ c = b - a + 1 ∧
          min_frames ≤ (b : ℤ) - (a : ℤ) + 1)) := by
  intro fuel
  induction fuel with
  | zero =>
      intro s e h a b c
      rw [detect_segments_stop values threshold min_frames (by omega : e ≤ s)]
      simp only [List.not_mem_nil, false_iff]
      rintro ⟨⟨h1, h2, h3, _, _, _⟩, _, _⟩
      omega
  | succ k ih =>
      intro s e h a b c
      by_cases hse : e ≤ s
      · rw [detect_segments_stop values threshold min_frames hse]
        simp only [List.not_mem_nil, false_iff]
        rintro ⟨⟨h1, h2, h3, _, _, _⟩, _, _⟩
        omega
      · push_neg at hse
        by_cases hq : qualifies values threshold s
        · -- a qualifying run opens at s and extends to B
          set B := extEnd values threshold s (s + 1) (e - s - 1) with hB
          have hBge : s ≤ B := extEnd_ge values threshold (e - s - 1) s
          have hBlt : B < e := by
            have := extEnd_lt values threshold (e - s - 1) s
            omega
          have hall : ∀ j, s ≤ j → j ≤ B → qualifies values threshold j := by
            intro j h1 h2
            rcases Nat.eq_or_lt_of_le h1 with h1 | h1
            · exact h1 ▸ hq
            · exact extEnd_qual values threshold (e - s - 1) s j h1 h2
          have hright : B + 1 = e ∨ ¬ qualifies values threshold (B + 1) := by
            by_cases hbe : B + 1 = e
            · exact Or.inl hbe
            · refine Or.inr (extEnd_max values threshold (e - s - 1) s ?_)
              omega
          rw [detect_segments_run values threshold min_frames hse hq, List.mem_append,
            mem_closeRun_iff, ih (B + 2) e (by omega) a b c]
          constructor
          · rintro (⟨hm, heq⟩ | ⟨hmr, hc, hm⟩)
            · obtain ⟨rfl, rfl, rfl⟩ : a = s ∧ b = B ∧ c = B - s + 1 := by
                cases heq; exact ⟨rfl, rfl, rfl⟩
              exact ⟨⟨le_rfl, hBge, hBlt, hall, Or.inl rfl, hright⟩, rfl, hm⟩
            · obtain ⟨h1, h2, h3, h4, h5, h6⟩ := hmr
              refine ⟨⟨by omega, h2, h3, h4, ?_, h6⟩, hc, hm⟩
              rcases h5 with rfl | h5
              · rcases hright with hbe | hnq
                · exact (by omega : False).elim
                · exact Or.inr (by simpa using hnq)
              · exact Or.inr h5
          · rintro ⟨⟨h1, h2, h3, h4, h5, h6⟩, hc, hm⟩
            by_cases hcase : a ≤ B + 1
            · have ha : a = s := by
                by_contra hne
                rcases h5 with h5 | h5
                · exact hne h5
                · exact h5 (hall (a - 1) (by omega) (by omega))
              subst ha
              have hb : b = B := by
                by_contra hne
                rcases Nat.lt_or_ge b B with hlt | hge
                · rcases h6 with h6 | h6
                  · omega
                  · exact h6 (hall (b + 1) (by omega) (by omega))
                · have hBb : B + 1 ≤ b := by omega
                  rcases hright with h7 | h7
                  · omega
                  · exact h7 (h4 (B + 1) (by omega) hBb)
              subst hb
              exact Or.inl ⟨hm, by rw [hc]⟩
            · push_neg at hcase
              refine Or.inr ⟨⟨by omega, h2, h3, h4, ?_, h6⟩, hc, hm⟩
              rcases h5 with h5 | h5
              · exact (by omega : False).elim
              · exact Or.inr h5
        · rw [detect_segments_skip values threshold min_frames hse hq,
            ih (s + 1) e (by omega) a b c, isMaxRun_succ hq]

theorem detect_mem_iff (values : List (Option ℚ)) (threshold : ℚ) (min_frames : ℤ)
    (index_start index_end a b c : ℕ) :
    ((⟨a, b, c⟩ : Segment) ∈
        detect_segments values threshold min_frames index_start index_end ↔
      (isMaxRun values threshold index_start index_end a b ∧ c = b - a + 1 ∧
        min_frames ≤ (b : ℤ) - (a : ℤ) + 1)) :=
  detect_mem_aux values threshold min_frames (index_end - index_start)
    index_start index_end le_rfl a b c

theorem detect_mem_seg (values : List (Option ℚ)) (threshold : ℚ) (min_frames : ℤ)
    (index_start index_end : ℕ) (seg : Segment) :
    (seg ∈ detect_segments values threshold min_frames index_start index_end ↔
      (isMaxRun values threshold index_start index_end
          seg.start_frame_index seg.end_frame_index ∧
        seg.frame_count = seg.end_frame_index - seg.start_frame_index + 1 ∧
        min_frames ≤ (seg.end_frame_index : ℤ) - (seg.start_frame_index : ℤ) + 1)) := by
  obtain ⟨a, b, c⟩ := seg
  exact detect_mem_iff values threshold min_frames index_start index_end a b c

theorem detect_sorted (values : List (Option ℚ)) (threshold : ℚ) (min_frames : ℤ) :
    ∀ (fuel index_start index_end : ℕ), index_end - index_start ≤ fuel →
      List.Pairwise
        (fun x y : Segment => x.end_frame_index < y.start_frame_index ∧
          x.start_frame_index < y.start_frame_index)
        (detect_segments values threshold min_frames index_start index_end) := by
  intro fuel
  induction fuel with
  | zero =>
      intro s e h
      rw [detect_segments_stop values threshold min_frames (by omega : e ≤ s)]
      exact List.Pairwise.nil
  | succ k ih =>
      intro s e h
      by_cases hse : e ≤ s
      · rw [detect_segments_stop values threshold min_frames hse]
        exact List.Pairwise.nil
      · push_neg at hse
        by_cases hq : qualifies values threshold s
        · set B := extEnd values threshold s (s + 1) (e - s - 1) with hB
          have hBge : s ≤ B := extEnd_ge values threshold (e - s - 1) s
          rw [detect_segments_run values threshold min_frames hse hq,
            List.pairwise_append]
          refine ⟨?_, ih (B + 2) e (by omega), ?_⟩
          · show List.Pairwise _ (if min_frames ≤ (B : ℤ) - (s : ℤ) + 1 then
              [] ++ [(⟨s, B, B - s + 1⟩ : Segment)] else [])
            split
            · simp
            · exact List.Pairwise.nil
          · intro x hx y hy
            obtain ⟨x1, x2, x3⟩ := x
            rw [mem_closeRun_iff] at hx
            obtain ⟨-, heq⟩ := hx
            rw [Segment.mk.injEq] at heq
            obtain ⟨rfl, rfl, rfl⟩ := heq
            have hy2 := (detect_mem_seg values threshold min_frames (B + 2) e y).mp hy
            have hys : B + 2 ≤ y.start_frame_index := hy2.1.1
            exact ⟨by dsimp only; omega, by dsimp only; omega⟩
        · rw [detect_segments_skip values threshold min_frames hse hq]
          exact ih (s + 1) e (by omega)

theorem getLast?_mem {α : Type _} : ∀ (l : List α) (x : α), l.getLast? = some x → x ∈ l := by
  intro l
  induction l with
  | nil => intro x h; cases h
  | cons a t ih =>
      intro x h
      cases t with
      | nil =>
          simp only [List.getLast?_singleton, Option.some.injEq] at h
          simp [h]
      | cons b u =>
          rw [List.getLast?_cons_cons] at h
          exact List.mem_cons_of_mem a (ih x h)

theorem get_scope_indices_bounds {n : ℕ} {scope : String} {tail_seconds fps : ℚ}
    {start stop : ℤ}
    (h : get_scope_indices (n : ℤ) scope tail_seconds fps = .ok (start, stop)) :
    0 ≤ start ∧ start ≤ stop ∧ stop ≤ (n : ℤ) ∧ (0 < n → stop = (n : ℤ)) := by
  unfold get_scope_indices at h
  by_cases h0 : (n : ℤ) ≤ 0
  · rw [if_pos h0] at h
    obtain ⟨rfl, rfl⟩ : (0 : ℤ) = start ∧ (0 : ℤ) = stop := by
      cases h; exact ⟨rfl, rfl⟩
    refine ⟨le_rfl, le_rfl, by omega, by omega⟩
  · rw [if_neg h0] at h
    by_cases hfull : scope = "full"
    · rw [if_pos hfull] at h
      obtain ⟨rfl, rfl⟩ : (0 : ℤ) = start ∧ (n : ℤ) = stop := by
        cases h; exact ⟨rfl, rfl⟩
      omega
    · rw [if_neg hfull] at h
      by_cases hts : tail_seconds ≤ 0
      · rw [if_pos hts] at h
        cases h
      · rw [if_neg hts] at h
        obtain ⟨hs, rfl⟩ :
            max 0 ((n : ℤ) - max 1 (pyRound (tail_seconds * fps))) = start ∧
              (n : ℤ) = stop := by
          cases h; exact ⟨rfl, rfl⟩
        have h1 : (1 : ℤ) ≤ max 1 (pyRound (tail_seconds * fps)) := le_max_left 1 _
        omega

/-- Claim C1: if a qualifying run is still open when the scan reaches
`index_end - 1`, `detect_segments` closes it and emits it subject to the same
minimum-length filter; on `values = [10, 1, 1, 1]`, `threshold = 2`,
`min_frames = 2`, range `[0, 4)`, exactly one segment is returned and its end
index is `3`. -/
theorem detect_segments_closes_open_run_at_end :
    (∀ (values : List (Option ℚ)) (threshold : ℚ) (min_frames : ℤ)
        (index_start index_end j : ℕ),
      index_end ≤ values.length → index_start ≤ j → j < index_end →
      (∀ i, j ≤ i → i < index_end → qualifies values threshold i) →
      (j = index_start ∨ ¬ qualifies values threshold (j - 1)) →
      ((⟨j, index_end - 1, index_end - j⟩ : Segment) ∈
          detect_segments values threshold min_frames index_start index_end ↔
        min_frames ≤ (index_end : ℤ) - (j : ℤ))) ∧
    detect_segments [some 10, some 1, some 1, some 1] 2 2 0 4 = [⟨1, 3, 3⟩] := by
  constructor
  · intro values threshold min_frames s e j hlen hsj hje hall hleft
    rw [detect_mem_iff]
    constructor
    · rintro ⟨-, -, hm⟩
      omega
    · intro hm
      refine ⟨⟨hsj, by omega, by omega, ?_, hleft, Or.inl (by omega)⟩, by omega, by omega⟩
      intro i h1 h2
      exact hall i h1 (by omega)
  · decide

theorem detect_segments_closes_open_run_at_end_witness :
    (⟨1, 3, 3⟩ : Segment) ∈ detect_segments [some 10, some 1, some 1, some 1] 2 2 0 4 ↔
      (2 : ℤ) ≤ ((4 : ℕ) : ℤ) - ((1 : ℕ) : ℤ) :=
  detect_segments_closes_open_run_at_end.1 [some 10, some 1, some 1, some 1] 2 2 0 4 1
    (by decide) (by decide) (by decide)
    (by intro i h1 h2; interval_cases i <;> decide)
    (Or.inr (by decide))

/-- Claim C2: the segments returned by `detect_segments` are pairwise disjoint
(each ends strictly before the next starts) and ordered by strictly ascending
start index, each has `frame_count = end_frame_index - start_frame_index + 1`
at least `min_frames`, and all indices lie within `[index_start, index_end)`;
an empty range yields no segments, and a range in which every value is
undefined yields no segments. -/
theorem detect_segments_guarantees :
    ∀ (values : List (Option ℚ)) (threshold : ℚ) (min_frames : ℤ)
      (index_start index_end : ℕ), index_end ≤ values.length →
      (List.Pairwise (fun x y : Segment =>
          x.end_frame_index < y.start_frame_index ∧
          x.start_frame_index < y.start_frame_index)
        (detect_segments values threshold min_frames index_start index_end)) ∧
      (∀ seg ∈ detect_segments values threshold min_frames index_start index_end,
        seg.frame_count = seg.end_frame_index - seg.start_frame_index + 1 ∧
        min_frames ≤ (seg.frame_count : ℤ) ∧
        index_start ≤ seg.start_frame_index ∧
        seg.start_frame_index ≤ seg.end_frame_index ∧
        seg.end_frame_index < index_end) ∧
      (index_start = index_end →
        detect_segments values threshold min_frames index_start index_end = []) ∧
      ((∀ i, index_start ≤ i → i < index_end → values.getD i none = none) →
        detect_segments values threshold min_frames index_start index_end = []) := by
  intro values threshold min_frames s e hlen
  refine ⟨detect_sorted values threshold min_frames (e - s) s e le_rfl, ?_, ?_, ?_⟩
  · intro seg hseg
    obtain ⟨⟨h1, h2, h3, -, -, -⟩, hc, hm⟩ :=
      (detect_mem_seg values threshold min_frames s e seg).mp hseg
    exact ⟨hc, by omega, h1, h2, h3⟩
  · intro h
    exact detect_segments_stop values threshold min_frames (le_of_eq h.symm)
  · intro hnone
    rw [List.eq_nil_iff_forall_not_mem]
    intro seg hseg
    obtain ⟨⟨h1, h2, h3, h4, -, -⟩, -, -⟩ :=
      (detect_mem_seg values threshold min_frames s e seg).mp hseg
    obtain ⟨v, hv, -⟩ := h4 seg.start_frame_index le_rfl h2
    rw [hnone seg.start_frame_index h1 (by omega)] at hv
    cases hv

theorem detect_segments_guarantees_witness :
    (List.Pairwise (fun x y : Segment =>
        x.end_frame_index < y.start_frame_index ∧
        x.start_frame_index < y.start_frame_index)
      (detect_segments [some 1, none, some 1] 1 1 0 3)) ∧
    (∀ seg ∈ detect_segments [some 1, none, some 1] 1 1 0 3,
      seg.frame_count = seg.end_frame_index - seg.start_frame_index + 1 ∧
      (1 : ℤ) ≤ (seg.frame_count : ℤ) ∧
      0 ≤ seg.start_frame_index ∧
      seg.start_frame_index ≤ seg.end_frame_index ∧
      seg.end_frame_index < 3) ∧
    ((0 : ℕ) = 3 → detect_segments [some 1, none, some 1] 1 1 0 3 = []) ∧
    ((∀ i, 0 ≤ i → i < 3 →
        ([some 1, none, some 1] : List (Option ℚ)).getD i none = none) →
      detect_segments [some 1, none, some 1] 1 1 0 3 = []) :=
  detect_segments_guarantees [some 1, none, some 1] 1 1 0 3 (by decide)

/-- Claim C3: `detect_segments` emits a maximal contiguous run of defined
values `<= threshold` if and only if its length is at least `min_frames`
(an undefined value or a value above the threshold delimits runs); on
`values = [10, 1, 1, 1, 10, 10, 1, 1, 10]`, `threshold = 2`, `min_frames = 3`,
full range, exactly `[{start 1, end 3, frame_count 3}]` is returned. -/
theorem detect_segments_maximal_run_iff :
    (∀ (values : List (Option ℚ)) (threshold : ℚ) (min_frames : ℤ)
        (index_start index_end a b c : ℕ), index_end ≤ values.length →
      ((⟨a, b, c⟩ : Segment) ∈
          detect_segments values threshold min_frames index_start index_end ↔
        (isMaxRun values threshold index_start index_end a b ∧ c = b - a + 1 ∧
          min_frames ≤ (b : ℤ) - (a : ℤ) + 1))) ∧
    detect_segments ([(10 : ℚ), 1, 1, 1, 10, 10, 1, 1, 10].map some) 2 3 0 9 =
      [⟨1, 3, 3⟩] := by
  constructor
  · intro values threshold min_frames s e a b c hlen
    exact detect_mem_iff values threshold min_frames s e a b c
  · decide

theorem detect_segments_maximal_run_iff_witness :
    (⟨1, 3, 3⟩ : Segment) ∈
        detect_segments ([(10 : ℚ), 1, 1, 1, 10, 10, 1, 1, 10].map some) 2 3 0 9 ↔
      (isMaxRun ([(10 : ℚ), 1, 1, 1, 10, 10, 1, 1, 10].map some) 2 0 9 1 3 ∧
        (3 : ℕ) = 3 - 1 + 1 ∧ (3 : ℤ) ≤ ((3 : ℕ) : ℤ) - ((1 : ℕ) : ℤ) + 1) :=
  detect_segments_maximal_run_iff.1 ([(10 : ℚ), 1, 1, 1, 10, 10, 1, 1, 10].map some)
    2 3 0 9 1 3 3 (by decide)

/-- Claim C4: `percentile` on an ascending-sorted sample: an empty sample
gives the undefined sentinel (never an error); `p <= 0` gives the first
element; `p >= 100` gives the last; otherwise, with
`pos = (len - 1) * p / 100`, `lo = floor pos`, `hi = ceil pos`, it gives
`s[lo]` exactly when `lo = hi` and otherwise the linear interpolation
`s[lo] * (1 - w) + s[hi] * w` with `w = pos - lo`; and
`percentile [1, 2, 3, 4] 50 = 5/2`. -/
theorem percentile_spec :
    (∀ p : ℚ, percentile [] p = none) ∧
    (∀ (s : List ℚ) (p : ℚ), List.Sorted (· ≤ ·) s → s ≠ [] → p ≤ 0 →
      percentile s p = s.head?) ∧
    (∀ (s : List ℚ) (p : ℚ), List.Sorted (· ≤ ·) s → s ≠ [] → 100 ≤ p →
      percentile s p = s.getLast?) ∧
    (∀ (s : List ℚ) (p : ℚ), List.Sorted (· ≤ ·) s → s ≠ [] → 0 < p → p < 100 →
      (⌊((s.length - 1 : ℕ) : ℚ) * (p / 100)⌋ = ⌈((s.length - 1 : ℕ) : ℚ) * (p / 100)⌉ →
        percentile s p =
          some (s.getD (⌊((s.length - 1 : ℕ) : ℚ) * (p / 100)⌋).toNat 0)) ∧
      (⌊((s.length - 1 : ℕ) : ℚ) * (p / 100)⌋ ≠ ⌈((s.length - 1 : ℕ) : ℚ) * (p / 100)⌉ →
        percentile s p =
          some (s.getD (⌊((s.length - 1 : ℕ) : ℚ) * (p / 100)⌋).toNat 0 *
              (1 - (((s.length - 1 : ℕ) : ℚ) * (p / 100) -
                ((⌊((s.length - 1 : ℕ) : ℚ) * (p / 100)⌋ : ℤ) : ℚ))) +
            s.getD (⌈((s.length - 1 : ℕ) : ℚ) * (p / 100)⌉).toNat 0 *
              (((s.length - 1 : ℕ) : ℚ) * (p / 100) -
                ((⌊((s.length - 1 : ℕ) : ℚ) * (p / 100)⌋ : ℤ) : ℚ))))) ∧
    percentile [1, 2, 3, 4] 50 = some (5 / 2) := by
  refine ⟨?_, ?_, ?_, ?_, ?_⟩
  · intro p
    simp [percentile]
  · intro s p hsort hs hp
    unfold percentile
    rw [if_neg (by simp [hs]), if_pos hp]
  · intro s p hsort hs hp
    unfold percentile
    rw [if_neg (by simp [hs]), if_neg (by intro h; nlinarith), if_pos hp]
  · intro s p hsort hs hp0 hp100
    unfold percentile
    rw [if_neg (by simp [hs]), if_neg (by intro h; nlinarith),
      if_neg (by intro h; nlinarith)]
    constructor
    · intro hlh
      rw [if_pos hlh]
    · intro hlh
      rw [if_neg hlh]
  · unfold percentile
    have hfloor : ⌊((4 - 1 : ℕ) : ℚ) * ((50 : ℚ) / 100)⌋ = 1 := by
      norm_num
    have hceil : ⌈((4 - 1 : ℕ) : ℚ) * ((50 : ℚ) / 100)⌉ = 2 := by
      rw [Int.ceil_eq_iff]; norm_num
    rw [if_neg (by decide), if_neg (by decide), if_neg (by decide)]
    simp only [List.length_cons, List.length_nil]
    rw [show (0 + 1 + 1 + 1 + 1 - 1 : ℕ) = 3 by decide] at *
    rw [show ((4 - 1 : ℕ) : ℚ) = ((3 : ℕ) : ℚ) by norm_num] at hfloor hceil
    rw [hfloor, hceil, if_neg (by decide)]
    norm_num [List.getD]
    norm_num [show Int.toNat 2 = 2 from rfl, List.getElem_cons_succ,
      List.getElem_cons_zero]

theorem percentile_spec_witness :
    percentile [1, 2] 0 = List.head? [1, 2] :=
  percentile_spec.2.1 [1, 2] 0 (by decide) (by decide) (by decide)

theorem pyRound_fifty : pyRound ((2 : ℚ) * 25) = 50 := by
  rw [show (2 : ℚ) * 25 = 50 by norm_num]
  unfold pyRound
  rw [show ⌊(50 : ℚ)⌋ = 50 by norm_num]
  norm_num

/-- Claim C5: for `N > 0`, `fps > 0`, `tail_seconds > 0`, the scope resolver
for tail scope returns `[max 0 (N - tail_frames), N)` with
`tail_frames = max 1 (round (tail_seconds * fps))` (Python `round`), and the
returned pair satisfies `0 <= start <= end <= N`; for `N <= 0` it returns
`[0, 0)`; `N = 100`, `fps = 25`, `tail_seconds = 2` gives `[50, 100)`. -/
theorem get_scope_indices_tail_spec :
    (∀ (N : ℤ) (fps tail_seconds : ℚ), 0 < N → 0 < fps → 0 < tail_seconds →
      get_scope_indices N "tail" tail_seconds fps =
          .ok (max 0 (N - max 1 (pyRound (tail_seconds * fps))), N) ∧
        ∀ start stop : ℤ,
          get_scope_indices N "tail" tail_seconds fps = .ok (start, stop) →
          start ≤ stop ∧ 0 ≤ start ∧ stop ≤ N) ∧
    (∀ (N : ℤ) (fps tail_seconds : ℚ), N ≤ 0 →
      get_scope_indices N "tail" tail_seconds fps = .ok (0, 0)) ∧
    get_scope_indices 100 "tail" 2 25 = .ok (50, 100) := by
  refine ⟨?_, ?_, ?_⟩
  · intro N fps tail_seconds hN hfps hts
    have heq : get_scope_indices N "tail" tail_seconds fps =
        .ok (max 0 (N - max 1 (pyRound (tail_seconds * fps))), N) := by
      unfold get_scope_indices
      rw [if_neg (by omega), if_neg (by decide), if_neg (by intro h; nlinarith)]
    refine ⟨heq, ?_⟩
    intro start stop hok
    rw [heq] at hok
    obtain ⟨rfl, rfl⟩ :
        max 0 (N - max 1 (pyRound (tail_seconds * fps))) = start ∧ N = stop := by
      cases hok; exact ⟨rfl, rfl⟩
    have h1 : (1 : ℤ) ≤ max 1 (pyRound (tail_seconds * fps)) := le_max_left 1 _
    refine ⟨max_le (by omega) (by omega), le_max_left 0 _, le_rfl⟩
  · intro N fps tail_seconds hN
    unfold get_scope_indices
    rw [if_pos hN]
  · unfold get_scope_indices
    rw [pyRound_fifty]
    decide

theorem get_scope_indices_tail_spec_witness :
    get_scope_indices 100 "tail" 2 25 =
        .ok (max 0 (100 - max 1 (pyRound ((2 : ℚ) * 25))), 100) ∧
      ∀ start stop : ℤ,
        get_scope_indices 100 "tail" 2 25 = .ok (start, stop) →
        start ≤ stop ∧ 0 ≤ start ∧ stop ≤ 100 :=
  get_scope_indices_tail_spec.1 100 25 2 (by decide) (by decide) (by decide)

theorem pyRound_nine_fourths : pyRound ((9 / 4 : ℚ) * 1) = 2 := by
  rw [show (9 / 4 : ℚ) * 1 = 9 / 4 by norm_num]
  unfold pyRound
  rw [show ⌊(9 / 4 : ℚ)⌋ = 2 by norm_num]
  rw [if_pos (by norm_num)]

/-- Claim C6 fails on the code: the tail window is sized with Python `round`
(`max 1 (round (tail_seconds * fps))`, half to even), not
`ceil (tail_seconds * fps)`.  At `N = 10`, `fps = 1`,
`tail_seconds = 9/4` the code returns `[8, 10)` while the ceiling formula
gives `[7, 10)`. -/
theorem tail_scope_not_ceil :
    ¬ (get_scope_indices 10 "tail" (9 / 4) 1 =
        .ok (max 0 (10 - ⌈(9 / 4 : ℚ) * 1⌉), 10)) := by
  have hceil : ⌈(9 / 4 : ℚ) * 1⌉ = 3 := by
    rw [show (9 / 4 : ℚ) * 1 = 9 / 4 by norm_num]
    rw [Int.ceil_eq_iff]; norm_num
  have hval : get_scope_indices 10 "tail" (9 / 4) 1 = .ok (8, 10) := by
    unfold get_scope_indices
    rw [pyRound_nine_fourths, if_neg (by decide), if_neg (by decide),
      if_neg (show ¬ ((9 / 4 : ℚ) ≤ 0) by norm_num)]
    decide
  rw [hval, hceil]
  decide

/-- Claim C6, amended: for every `N > 0`, `fps > 0` and `tail_seconds > 0`
the tail scope equals the trailing window
`[max 0 (N - max 1 (round (tail_seconds * fps))), N)` (Python `round`, half
to even — not `ceil`), and this window always contains at least one frame. -/
theorem tail_scope_window_spec :
    ∀ (N : ℤ) (fps tail_seconds : ℚ), 0 < N → 0 < fps → 0 < tail_seconds →
      get_scope_indices N "tail" tail_seconds fps =
          .ok (max 0 (N - max 1 (pyRound (tail_seconds * fps))), N) ∧
        ∀ start stop : ℤ,
          get_scope_indices N "tail" tail_seconds fps = .ok (start, stop) →
          start < stop := by
  intro N fps tail_seconds hN hfps hts
  have heq : get_scope_indices N "tail" tail_seconds fps =
      .ok (max 0 (N - max 1 (pyRound (tail_seconds * fps))), N) := by
    unfold get_scope_indices
    rw [if_neg (by omega), if_neg (by decide), if_neg (by intro h; nlinarith)]
  refine ⟨heq, ?_⟩
  intro start stop hok
  rw [heq] at hok
  obtain ⟨rfl, rfl⟩ :
      max 0 (N - max 1 (pyRound (tail_seconds * fps))) = start ∧ N = stop := by
    cases hok; exact ⟨rfl, rfl⟩
  have h1 : (1 : ℤ) ≤ max 1 (pyRound (tail_seconds * fps)) := le_max_left 1 _
  exact max_lt hN (by omega)

theorem tail_scope_window_spec_witness :
    get_scope_indices 100 "tail" 2 25 =
        .ok (max 0 (100 - max 1 (pyRound ((2 : ℚ) * 25))), 100) ∧
      ∀ start stop : ℤ,
        get_scope_indices 100 "tail" 2 25 = .ok (start, stop) →
        start < stop :=
  tail_scope_window_spec 100 25 2 (by decide) (by decide) (by decide)

theorem analyze_black_segments_ok {fps : ℚ} {luma_values : List ℚ} {scope : String}
    {tail_seconds black_threshold : ℚ} {min_segment_frames : ℤ} {start stop : ℤ}
    (hres : get_scope_indices (luma_values.length : ℤ) scope tail_seconds fps =
      .ok (start, stop)) :
    analyze_black_segments fps luma_values scope tail_seconds black_threshold
        min_segment_frames =
      .ok { mode := "black-segments"
            fps := fps
            total_frames := luma_values.length
            duration_sec_estimate := (luma_values.length : ℚ) / fps
            scope := scope
            tail_seconds := if scope = "tail" then some tail_seconds else none
            scope_start_frame := start
            scope_end_frame_exclusive := stop
            black_threshold := black_threshold
            min_segment_frames := min_segment_frames
            black_frame_count_in_scope :=
              ((List.range' start.toNat (stop.toNat - start.toNat)).filter
                (fun idx => decide (luma_values.getD idx 0 ≤ black_threshold))).length
            black_frame_ratio_in_scope :=
              if 0 < stop - start then
                ((((List.range' start.toNat (stop.toNat - start.toNat)).filter
                    (fun idx => decide (luma_values.getD idx 0 ≤ black_threshold))).length : ℚ) /
                  ((stop - start : ℤ) : ℚ))
              else 0
            has_black_at_video_end :=
              match (enrich_segments_with_time
                  (detect_segments (luma_values.map some) black_threshold
                    min_segment_frames start.toNat stop.toNat) fps).getLast? with
              | some seg => decide ((luma_values.length : ℤ) - 1 ≤ (seg.end_frame_index : ℤ))
              | none => false
            segment_count := (enrich_segments_with_time
              (detect_segments (luma_values.map some) black_threshold
                min_segment_frames start.toNat stop.toNat) fps).length
            segments := enrich_segments_with_time
              (detect_segments (luma_values.map some) black_threshold
                min_segment_frames start.toNat stop.toNat) fps } := by
  simp only [analyze_black_segments]
  rw [hres]

theorem analyze_freeze_segments_ok {fps : ℚ} {motion_values : List (Option ℚ)}
    {scope : String} {tail_seconds freeze_threshold : ℚ} {min_segment_frames : ℤ}
    {start0 stop : ℤ}
    (hres : get_scope_indices (motion_values.length : ℤ) scope tail_seconds fps =
      .ok (start0, stop)) :
    analyze_freeze_segments fps motion_values scope tail_seconds freeze_threshold
        min_segment_frames =
      .ok { mode := "freeze-segments"
            fps := fps
            total_frames := motion_values.length
            duration_sec_estimate := (motion_values.length : ℚ) / fps
            scope := scope
            tail_seconds := if scope = "tail" then some tail_seconds else none
            scope_start_frame := max start0 1
            scope_end_frame_exclusive := stop
            freeze_threshold := freeze_threshold
            min_segment_frames := min_segment_frames
            freeze_frame_count_in_scope :=
              ((List.range' (max start0 1).toNat (stop.toNat - (max start0 1).toNat)).filter
                (fun idx => decide (qualifies motion_values freeze_threshold idx))).length
            freeze_frame_ratio_in_scope :=
              if 0 < max 0 (stop - max start0 1) then
                ((((List.range' (max start0 1).toNat
                      (stop.toNat - (max start0 1).toNat)).filter
                    (fun idx => decide (qualifies motion_values freeze_threshold idx))).length : ℚ) /
                  ((max 0 (stop - max start0 1) : ℤ) : ℚ))
              else 0
            has_freeze_at_video_end :=
              match (enrich_segments_with_time
                  (detect_segments motion_values freeze_threshold
                    min_segment_frames (max start0 1).toNat stop.toNat) fps).getLast? with
              | some seg => decide ((motion_values.length : ℤ) - 1 ≤ (seg.end_frame_index : ℤ))
              | none => false
            segment_count := (enrich_segments_with_time
              (detect_segments motion_values freeze_threshold
                min_segment_frames (max start0 1).toNat stop.toNat) fps).length
            segments := enrich_segments_with_time
              (detect_segments motion_values freeze_threshold
                min_segment_frames (max start0 1).toNat stop.toNat) fps } := by
  simp only [analyze_freeze_segments]
  rw [hres]

theorem pyRound_five : pyRound ((1 : ℚ) * 5) = 5 := by
  rw [show (1 : ℚ) * 5 = 5 by norm_num]
  unfold pyRound
  rw [show ⌊(5 : ℚ)⌋ = 5 by norm_num]
  norm_num

theorem pyRound_three : pyRound ((3 : ℚ) * 1) = 3 := by
  rw [show (3 : ℚ) * 1 = 3 by norm_num]
  unfold pyRound
  rw [show ⌊(3 : ℚ)⌋ = 3 by norm_num]
  norm_num

theorem scope_five_tail : get_scope_indices
    ((([none, some 0, some 0, some 0, some 0] : List (Option ℚ)).length : ℕ) : ℤ)
    "tail" 1 5 = .ok (0, 5) := by
  show get_scope_indices 5 "tail" 1 5 = .ok (0, 5)
  unfold get_scope_indices
  rw [pyRound_five]
  decide

theorem scope_five_tail_luma : get_scope_indices
    ((([9, 9, 0, 0, 0] : List ℚ).length : ℕ) : ℤ) "tail" 3 1 = .ok (2, 5) := by
  show get_scope_indices 5 "tail" 3 1 = .ok (2, 5)
  unfold get_scope_indices
  rw [pyRound_three]
  decide

/-- Claim C7: the freeze-segment report clamps the detection start index to
at least `1` (frame `0` has no motion value), even when scope resolution
alone picked an earlier start; with `N = 5`,
`motion = [None, 0, 0, 0, 0]`, freeze threshold `0`, `min_frames = 4`, tail
scope covering all 5 frames at `fps = 5`, the detection range starts at
index `1` and exactly one segment `{1, 4}` with `frame_count = 4` is
reported. -/
theorem freeze_detection_start_clamped :
    (∀ (fps : ℚ) (motion_values : List (Option ℚ)) (scope : String)
        (tail_seconds freeze_threshold : ℚ) (min_segment_frames : ℤ)
        (start0 stop : ℤ),
      get_scope_indices (motion_values.length : ℤ) scope tail_seconds fps =
        .ok (start0, stop) →
      ∃ r, analyze_freeze_segments fps motion_values scope tail_seconds
          freeze_threshold min_segment_frames = .ok r ∧
        r.scope_start_frame = max start0 1 ∧ 1 ≤ r.scope_start_frame ∧
        r.segments = enrich_segments_with_time
          (detect_segments motion_values freeze_threshold min_segment_frames
            (max start0 1).toNat stop.toNat) fps) ∧
    ((analyze_freeze_segments 5 [none, some 0, some 0, some 0, some 0]
        "tail" 1 0 4).toOption.map
      (fun r => (r.scope_start_frame,
        r.segments.map (fun x => (x.start_frame_index, x.end_frame_index, x.frame_count)))) =
      some (1, [(1, 4, 4)])) := by
  constructor
  · intro fps motion_values scope tail_seconds freeze_threshold min_segment_frames
      start0 stop hres
    exact ⟨_, analyze_freeze_segments_ok hres, rfl, le_max_right start0 1, rfl⟩
  · rw [analyze_freeze_segments_ok scope_five_tail]
    decide

theorem freeze_detection_start_clamped_witness :
    ∃ r, analyze_freeze_segments 5 [none, some 0, some 0, some 0, some 0]
        "tail" 1 0 4 = .ok r ∧
      r.scope_start_frame = max (0 : ℤ) 1 ∧ 1 ≤ r.scope_start_frame ∧
      r.segments = enrich_segments_with_time
        (detect_segments [none, some 0, some 0, some 0, some 0] 0 4
          (max (0 : ℤ) 1).toNat ((5 : ℤ)).toNat) 5 :=
  freeze_detection_start_clamped.1 5 [none, some 0, some 0, some 0, some 0]
    "tail" 1 0 4 0 5 scope_five_tail

/-- Claim C8: the "black/freeze at video end" flag of a report is true if
and only if the segment list is nonempty and the last segment's end index
equals the last frame index `N - 1` of the whole clip (not the scope's
exclusive end minus one), including when the scope starts after index `0`
but still reaches the final frame. -/
theorem end_flag_iff_last_frame :
    (∀ (fps : ℚ) (luma_values : List ℚ) (scope : String)
        (tail_seconds black_threshold : ℚ) (min_segment_frames : ℤ)
        (start stop : ℤ), 0 < luma_values.length →
      get_scope_indices (luma_values.length : ℤ) scope tail_seconds fps =
        .ok (start, stop) →
      ∃ r, analyze_black_segments fps luma_values scope tail_seconds
          black_threshold min_segment_frames = .ok r ∧
        (r.has_black_at_video_end = true ↔
          ∃ seg, r.segments.getLast? = some seg ∧
            seg.end_frame_index = luma_values.length - 1)) ∧
    (∀ (fps : ℚ) (motion_values : List (Option ℚ)) (scope : String)
        (tail_seconds freeze_threshold : ℚ) (min_segment_frames : ℤ)
        (start0 stop : ℤ), 0 < motion_values.length →
      get_scope_indices (motion_values.length : ℤ) scope tail_seconds fps =
        .ok (start0, stop) →
      ∃ r, analyze_freeze_segments fps motion_values scope tail_seconds
          freeze_threshold min_segment_frames = .ok r ∧
        (r.has_freeze_at_video_end = true ↔
          ∃ seg, r.segments.getLast? = some seg ∧
            seg.end_frame_index = motion_values.length - 1)) ∧
    ((analyze_black_segments 1 [9, 9, 0, 0, 0] "tail" 3 1 2).toOption.map
      (fun r => (r.scope_start_frame, r.has_black_at_video_end)) =
      some (2, true)) := by
  refine ⟨?_, ?_, ?_⟩
  · intro fps luma_values scope tail_seconds black_threshold min_segment_frames
      start stop hlen hres
    refine ⟨_, analyze_black_segments_ok hres, ?_⟩
    dsimp only
    have hstop : stop.toNat ≤ luma_values.length := by
      obtain ⟨-, -, h3, -⟩ := get_scope_indices_bounds hres
      omega
    cases hlast : (enrich_segments_with_time
        (detect_segments (luma_values.map some) black_threshold
          min_segment_frames start.toNat stop.toNat) fps).getLast? with
    | none => simp [hlast]
    | some seg =>
        simp only [hlast]
        have hmem := getLast?_mem _ _ hlast
        obtain ⟨raw, hraw, hre⟩ := List.mem_map.mp hmem
        have hrawmem := (detect_mem_seg _ _ _ _ _ raw).mp hraw
        have hlt : raw.end_frame_index < stop.toNat := hrawmem.1.2.2.1
        have hend : seg.end_frame_index = raw.end_frame_index := by
          rw [← hre]
        constructor
        · intro h
          rw [decide_eq_true_iff] at h
          exact ⟨seg, rfl, by omega⟩
        · rintro ⟨seg', hs, he⟩
          injection hs with hs
          subst hs
          rw [decide_eq_true_iff]
          omega
  · intro fps motion_values scope tail_seconds freeze_threshold min_segment_frames
      start0 stop hlen hres
    refine ⟨_, analyze_freeze_segments_ok hres, ?_⟩
    dsimp only
    have hstop : stop.toNat ≤ motion_values.length := by
      obtain ⟨-, -, h3, -⟩ := get_scope_indices_bounds hres
      omega
    cases hlast : (enrich_segments_with_time
        (detect_segments motion_values freeze_threshold
          min_segment_frames (max start0 1).toNat stop.toNat) fps).getLast? with
    | none => simp [hlast]
    | some seg =>
        simp only [hlast]
        have hmem := getLast?_mem _ _ hlast
        obtain ⟨raw, hraw, hre⟩ := List.mem_map.mp hmem
        have hrawmem := (detect_mem_seg _ _ _ _ _ raw).mp hraw
        have hlt : raw.end_frame_index < stop.toNat := hrawmem.1.2.2.1
        have hend : seg.end_frame_index = raw.end_frame_index := by
          rw [← hre]
        constructor
        · intro h
          rw [decide_eq_true_iff] at h
          exact ⟨seg, rfl, by omega⟩
        · rintro ⟨seg', hs, he⟩
          injection hs with hs
          subst hs
          rw [decide_eq_true_iff]
          omega
  · rw [analyze_black_segments_ok scope_five_tail_luma]
    decide

theorem end_flag_iff_last_frame_witness :
    ∃ r, analyze_black_segments 1 [9, 9, 0, 0, 0] "tail" 3 1 2 = .ok r ∧
      (r.has_black_at_video_end = true ↔
        ∃ seg, r.segments.getLast? = some seg ∧
          seg.end_frame_index = ([9, 9, 0, 0, 0] : List ℚ).length - 1) :=
  end_flag_iff_last_frame.1 1 [9, 9, 0, 0, 0] "tail" 3 1 2 2 5
    (by decide) scope_five_tail_luma

/-- Claim C10: when the clamped freeze-detection start reaches or passes the
scope's exclusive end (for instance a one-frame clip, whose full scope is
`[0, 1)`), the freeze-segment report is still produced without error, with
zero segments, a zero in-scope freeze count, and ratio `0` (the scoped
count is clamped to at least `0` and the ratio division is guarded). -/
theorem freeze_report_degenerate_scope_safe :
    (∀ (fps : ℚ) (motion_values : List (Option ℚ)) (scope : String)
        (tail_seconds freeze_threshold : ℚ) (min_segment_frames : ℤ)
        (start0 stop : ℤ),
      get_scope_indices (motion_values.length : ℤ) scope tail_seconds fps =
        .ok (start0, stop) →
      stop ≤ max start0 1 →
      ∃ r, analyze_freeze_segments fps motion_values scope tail_seconds
          freeze_threshold min_segment_frames = .ok r ∧
        r.segments = [] ∧ r.segment_count = 0 ∧
        r.freeze_frame_count_in_scope = 0 ∧ r.freeze_frame_ratio_in_scope = 0) ∧
    ((analyze_freeze_segments 30 [none] "full" 2 1 3).toOption.map
      (fun r => (r.segment_count, r.freeze_frame_count_in_scope,
        r.freeze_frame_ratio_in_scope, r.segments)) = some (0, 0, 0, [])) := by
  constructor
  · intro fps motion_values scope tail_seconds freeze_threshold min_segment_frames
      start0 stop hres hle
    refine ⟨_, analyze_freeze_segments_ok hres, ?_, ?_, ?_, ?_⟩ <;> dsimp only
    · rw [detect_segments_stop _ _ _ (Int.toNat_le_toNat hle)]
      rfl
    · rw [detect_segments_stop _ _ _ (Int.toNat_le_toNat hle)]
      rfl
    · rw [Nat.sub_eq_zero_of_le (Int.toNat_le_toNat hle)]
      rfl
    · rw [if_neg]
      rw [max_eq_left (by omega : stop - max start0 1 ≤ 0)]
      omega
  · decide

theorem freeze_report_degenerate_scope_safe_witness :
    ∃ r, analyze_freeze_segments 30 [none] "full" 2 1 3 = .ok r ∧
      r.segments = [] ∧ r.segment_count = 0 ∧
      r.freeze_frame_count_in_scope = 0 ∧ r.freeze_frame_ratio_in_scope = 0 :=
  freeze_report_degenerate_scope_safe.1 30 [none] "full" 2 1 3 0 1
    (by decide) (by decide)

/-- Claim C9 fails on the code for the `tail_seconds` case: the source
validates `min_segment_frames`, the thresholds and `stt_beam_size` before
calling `load_metrics`, but `tail_seconds <= 0` with tail scope is only
rejected inside `get_scope_indices`, which runs *after* the frames have
been decoded.  Witness: with `tail_seconds = 0`, scope `tail`, mode
`black-segments` and otherwise valid parameters, the run's outcome depends
on the decode result — a decode failure is reported instead of the
invalid-parameter failure, so the run does not fail before decoding. -/
theorem invalid_tail_seconds_checked_after_decode :
    ¬ (∀ load : Except RunError (ℚ × List ℚ × List (Option ℚ)),
        ∃ msg, run_analysis ⟨true, "black-segments", "tail", 0, 8, 1, 3, 5⟩ load =
          .error (.invalidParameter msg)) := by
  intro h
  obtain ⟨msg, hmsg⟩ := h (.error (.decodeFailure "cannot decode"))
  have hrun : run_analysis ⟨true, "black-segments", "tail", 0, 8, 1, 3, 5⟩
      (.error (.decodeFailure "cannot decode")) =
        .error (.decodeFailure "cannot decode") := by decide
  rw [hrun] at hmsg
  injection hmsg with hmsg
  exact RunError.noConfusion hmsg

/-- Claim C9, amended: a run with `min_segment_frames <= 0` or a negative
black/freeze threshold fails with an InvalidParameter condition before any
frame decoding is attempted (the outcome is the same for every decode
result); a run with `tail_seconds <= 0` and a tail-scoped segment mode also
fails with an InvalidParameter condition, but only after the frames have
been decoded (`get_scope_indices` raises during report construction). -/
theorem run_analysis_invalid_params :
    (∀ args : Args, args.input_exists = true →
      (args.min_segment_frames ≤ 0 ∨ args.black_threshold < 0 ∨
        args.freeze_threshold < 0) →
      ∃ msg, ∀ load, run_analysis args load = .error (.invalidParameter msg)) ∧
    (∀ (args : Args) (fps : ℚ) (luma_values : List ℚ)
        (motion_values : List (Option ℚ)),
      args.input_exists = true → 0 < args.min_segment_frames →
      0 ≤ args.black_threshold → 0 ≤ args.freeze_threshold →
      0 < args.stt_beam_size → args.tail_seconds ≤ 0 →
      normalize_mode_scope args.mode args.scope = ("black-segments", "tail") →
      0 < luma_values.length →
      run_analysis args (.ok (fps, luma_values, motion_values)) =
        .error (.invalidParameter "--tail-seconds must be > 0 when --scope tail")) ∧
    (∀ (args : Args) (fps : ℚ) (luma_values : List ℚ)
        (motion_values : List (Option ℚ)),
      args.input_exists = true → 0 < args.min_segment_frames →
      0 ≤ args.black_threshold → 0 ≤ args.freeze_threshold →
      0 < args.stt_beam_size → args.tail_seconds ≤ 0 →
      normalize_mode_scope args.mode args.scope = ("freeze-segments", "tail") →
      0 < motion_values.length →
      run_analysis args (.ok (fps, luma_values, motion_values)) =
        .error (.invalidParameter "--tail-seconds must be > 0 when --scope tail")) := by
  refine ⟨?_, ?_, ?_⟩
  · intro args hex hbad
    by_cases h1 : args.min_segment_frames ≤ 0
    · refine ⟨"--min-segment-frames must be > 0", fun load => ?_⟩
      unfold run_analysis
      rw [if_neg (by rw [hex]; simp), if_pos h1]
    · by_cases h2 : args.black_threshold < 0
      · refine ⟨"--black-threshold must be >= 0", fun load => ?_⟩
        unfold run_analysis
        rw [if_neg (by rw [hex]; simp), if_neg h1, if_pos h2]
      · have h3 : args.freeze_threshold < 0 := by tauto
        refine ⟨"--freeze-threshold must be >= 0", fun load => ?_⟩
        unfold run_analysis
        rw [if_neg (by rw [hex]; simp), if_neg h1, if_neg h2, if_pos h3]
  · intro args fps luma_values motion_values hex hmin hb hf hbeam hts hnorm hlen
    have hanalysis : analyze_black_segments fps luma_values "tail" args.tail_seconds
        args.black_threshold args.min_segment_frames =
          .error "--tail-seconds must be > 0 when --scope tail" := by
      have hres : get_scope_indices (luma_values.length : ℤ) "tail"
          args.tail_seconds fps =
            .error "--tail-seconds must be > 0 when --scope tail" := by
        unfold get_scope_indices
        rw [if_neg (by omega), if_neg (by decide), if_pos hts]
      simp only [analyze_black_segments]
      rw [hres]
    simp only [run_analysis]
    rw [if_neg (by rw [hex]; simp), if_neg (by omega), if_neg (by exact not_lt.mpr hb),
      if_neg (by exact not_lt.mpr hf), if_neg (by omega), hnorm]
    rw [if_neg (by decide), if_neg (by decide), if_pos rfl]
    rw [hanalysis]
  · intro args fps luma_values motion_values hex hmin hb hf hbeam hts hnorm hlen
    have hanalysis : analyze_freeze_segments fps motion_values "tail" args.tail_seconds
        args.freeze_threshold args.min_segment_frames =
          .error "--tail-seconds must be > 0 when --scope tail" := by
      have hres : get_scope_indices (motion_values.length : ℤ) "tail"
          args.tail_seconds fps =
            .error "--tail-seconds must be > 0 when --scope tail" := by
        unfold get_scope_indices
        rw [if_neg (by omega), if_neg (by decide), if_pos hts]
      simp only [analyze_freeze_segments]
      rw [hres]
    simp only [run_analysis]
    rw [if_neg (by rw [hex]; simp), if_neg (by omega), if_neg (by exact not_lt.mpr hb),
      if_neg (by exact not_lt.mpr hf), if_neg (by omega), hnorm]
    rw [if_neg (by decide), if_neg (by decide), if_neg (by decide), if_pos rfl]
    rw [hanalysis]

theorem run_analysis_invalid_params_witness :
    (∃ msg, ∀ load, run_analysis ⟨true, "black-segments", "full", 2, 8, 1, 0, 5⟩ load =
        .error (.invalidParameter msg)) ∧
    run_analysis ⟨true, "black-segments", "tail", 0, 8, 1, 3, 5⟩
        (.ok (30, [5], [none])) =
      .error (.invalidParameter "--tail-seconds must be > 0 when --scope tail") :=
  ⟨run_analysis_invalid_params.1 ⟨true, "black-segments", "full", 2, 8, 1, 0, 5⟩
      rfl (Or.inl (by decide)),
    run_analysis_invalid_params.2.1 ⟨true, "black-segments", "tail", 0, 8, 1, 3, 5⟩
      30 [5] [none] rfl (by decide) (by decide) (by decide) (by decide) (by decide)
      (by decide) (by decide)⟩
